import Mathlib

/-!
The reconciliation logic of github-status-controller.

A shallow embedding of `internal/controller/pipelinerun_controller.go`
(`Validate`, `ValidateSecret`, `findGitHubRevision`, `Reconcile`) and of
`pkg/git` (`NewGithubClient`, `createClient`, `createClientWithAuthToken`,
`SetStatus`), followed by theorems about them.

Conventions of the embedding:

* a Go `map[string]T` is an association list read with `List.lookup`
  (the comma-ok read `v, ok := m[k]` is `m.lookup k`, the plain read
  `m[k]` is `(m.lookup k).getD zero`);
* a Go `error` is `Option GoError`, `none` being `nil`;
* the cluster client, the URL library and the remote commit-status API are
  fields of a `World`; the publish calls a reconciliation issues are
  collected in a log that is threaded through the code.
-/

namespace GithubStatusController

/-! ## Go values -/

/-- A Go error value, identified by its message. -/
structure GoError where
  msg : String
  deriving DecidableEq, Repr

/-- The Go call `errors.New(text)`. -/
def errorsNew (text : String) : GoError := ⟨text⟩

/-- A Go `[]byte`; a Go string built from it by `string(b)` has the same bytes. -/
abbrev Bytes := List UInt8

/-- The segments of `s` between occurrences of the separator character,
on the characters of the string. -/
def splitChars (sep : Char) : List Char → List (List Char)
  | [] => [[]]
  | c :: cs =>
    if c = sep then [] :: splitChars sep cs
    else
      match splitChars sep cs with
      | [] => [[c]]
      | seg :: segs => (c :: seg) :: segs

/-- The Go call `strings.Split(s, ".")`: the substrings of `s` between the
dots, in order; a string without a dot (the empty one included) gives one
segment. The separator is one ASCII byte, which is never part of a
multi-byte character, so splitting the characters splits the bytes. -/
def stringsSplitDot (s : String) : List String :=
  (splitChars '.' s.data).map String.mk

/-! ## Kubernetes and Tekton objects

The type declarations come from the Kubernetes and Tekton API packages; only
the fields the controller reads are kept. -/

/-- The type `types.NamespacedName`. -/
structure NamespacedName where
  Namespace : String
  Name : String
  deriving DecidableEq, Repr

/-- The type `ParamValue` of a Tekton parameter. -/
structure ParamValue where
  StringVal : String
  ArrayVal : List String
  deriving DecidableEq, Repr

/-- A Tekton `Param`: a name and a value. -/
structure Param where
  Name : String
  Value : ParamValue
  deriving DecidableEq, Repr

/-- A Tekton `PipelineTask`: a name and its parameters, in order. -/
structure PipelineTask where
  Name : String
  Params : List Param
  deriving DecidableEq, Repr

/-- A Tekton `PipelineSpec`: its tasks, in order. -/
structure PipelineSpec where
  Tasks : List PipelineTask
  deriving DecidableEq, Repr

/-- A condition of the pipeline-run; `Status` is a Go string type, and
`Kind` is the field the API calls `Type`. -/
structure Condition where
  Kind : String
  Status : String
  deriving DecidableEq, Repr

/-- The constant `v1.ConditionTrue`. -/
def ConditionTrue : String := "True"

/-- The constant `v1.ConditionFalse`. -/
def ConditionFalse : String := "False"

/-- The status of a pipeline-run. `PipelineSpec` is a pointer in the Tekton
API (`*PipelineSpec`), `none` being the nil pointer. -/
structure PipelineRunStatus where
  PipelineSpec : Option PipelineSpec
  Conditions : List Condition
  deriving DecidableEq, Repr

/-- A Tekton `PipelineRun`, as far as the controller reads it. -/
structure PipelineRun where
  Name : String
  Namespace : String
  Annotations : List (String × String)
  Status : PipelineRunStatus
  deriving DecidableEq, Repr

/-- The method `GetAnnotations`. -/
def PipelineRun.GetAnnotations (pipelineRun : PipelineRun) : List (String × String) :=
  pipelineRun.Annotations

/-- A Kubernetes `Secret`: `Data` is a `map[string][]byte`. -/
structure Secret where
  Data : List (String × Bytes)
  deriving DecidableEq, Repr

/-! ## The annotation keys -/

def ANNOTATION_GITHUB_BASE_URL : String := "github-status-controller/github-base-url"
def ANNOTATION_GITHUB_OWNER : String := "github-status-controller/github-owner"
def ANNOTATION_GITHUB_REPOSITORY : String := "github-status-controller/github-repository"
def ANNOTATION_GITHUB_REVISION_PARAM_NAME : String :=
  "github-status-controller/github-revision-param-name"
def ANNOTATION_GITHUB_SECRET_NAME : String := "github-status-controller/github-secret-name"
def ANNOTATION_GITHUB_SECRET_KEY : String := "github-status-controller/github-secret-key"

/-! ## Validation -/

/-- The function `Validate`: the six annotation keys are looked up in turn
with the comma-ok read, and the first absent one is reported. -/
def Validate (pipelineRun : PipelineRun) : Option GoError :=
  let annotations := pipelineRun.GetAnnotations
  let existsBaseUrl := (annotations.lookup ANNOTATION_GITHUB_BASE_URL).isSome
  if !existsBaseUrl then
    some (errorsNew ("annotation '" ++ ANNOTATION_GITHUB_BASE_URL ++ "' is not set"))
  else
  let existsGithubOwner := (annotations.lookup ANNOTATION_GITHUB_OWNER).isSome
  if !existsGithubOwner then
    some (errorsNew ("annotation '" ++ ANNOTATION_GITHUB_OWNER ++ "' is not set"))
  else
  let existsGithubRepository := (annotations.lookup ANNOTATION_GITHUB_REPOSITORY).isSome
  if !existsGithubRepository then
    some (errorsNew ("annotation '" ++ ANNOTATION_GITHUB_REPOSITORY ++ "' is not set"))
  else
  let existsGithubRevisionParamName :=
    (annotations.lookup ANNOTATION_GITHUB_REVISION_PARAM_NAME).isSome
  if !existsGithubRevisionParamName then
    some (errorsNew ("annotation '" ++ ANNOTATION_GITHUB_REVISION_PARAM_NAME ++ "' is not set"))
  else
  let existsGithubSecretName := (annotations.lookup ANNOTATION_GITHUB_SECRET_NAME).isSome
  if !existsGithubSecretName then
    some (errorsNew ("annotation '" ++ ANNOTATION_GITHUB_SECRET_NAME ++ "' is not set"))
  else
  let existsGithubSecretKey := (annotations.lookup ANNOTATION_GITHUB_SECRET_KEY).isSome
  if !existsGithubSecretKey then
    some (errorsNew ("annotation '" ++ ANNOTATION_GITHUB_SECRET_KEY ++ "' is not set"))
  else
  none

/-- The function `ValidateSecret`: when both secret annotations are present,
the entry of the secret under the configured key must have a positive
length. -/
def ValidateSecret (pipelineRun : PipelineRun) (secret : Secret) : Option GoError :=
  let annotations := pipelineRun.GetAnnotations
  let existsGithubSecretName := (annotations.lookup ANNOTATION_GITHUB_SECRET_NAME).isSome
  let existsGithubSecretKey := (annotations.lookup ANNOTATION_GITHUB_SECRET_KEY).isSome
  if existsGithubSecretKey && existsGithubSecretName then
    if ((secret.Data.lookup
          ((annotations.lookup ANNOTATION_GITHUB_SECRET_KEY).getD "")).getD []).length ≤ 0 then
      some (errorsNew ("'" ++ (annotations.lookup ANNOTATION_GITHUB_SECRET_KEY).getD ""
        ++ "' is not set in the secret '"
        ++ (annotations.lookup ANNOTATION_GITHUB_SECRET_NAME).getD "" ++ "' "))
    else none
  else none

/-! ## The revision locator -/

/-- The inner loop of `findGitHubRevision`: the value of the first parameter
named `paramName`, if there is one. -/
def findParam (paramName : String) : List Param → Option String
  | [] => none
  | param :: params =>
    if param.Name = paramName then some param.Value.StringVal
    else findParam paramName params

/-- The outer loop of `findGitHubRevision`: every task named `taskName` has
its parameters scanned; the loop goes on to the next task when the scan
finds nothing. -/
def findInTasks (taskName paramName : String) : List PipelineTask → Option String
  | [] => none
  | task :: tasks =>
    if task.Name = taskName then
      match findParam paramName task.Params with
      | some v => some v
      | none => findInTasks taskName paramName tasks
    else findInTasks taskName paramName tasks

/-- The function `findGitHubRevision`, returning the Go pair
`(string, error)`. -/
def findGitHubRevision (tasks : List PipelineTask) (taskName paramName : String) :
    String × Option GoError :=
  match findInTasks taskName paramName tasks with
  | some v => (v, none)
  | none => ("", some (errorsNew (paramName ++ " not found in task " ++ taskName)))

/-! ## The status client (`pkg/git`) -/

/-- The type `GithubClient`. `AccessToken` holds the bytes of the Go string. -/
structure GithubClient where
  BaseUrl : String
  RepoOwner : String
  RepoName : String
  Revision : String
  AccessToken : Bytes
  InsecureSkipVerify : Bool
  deriving DecidableEq, Repr

/-- The function `NewGithubClient`. -/
def NewGithubClient (baseUrl repoOwner repoName revision : String) (accessToken : Bytes)
    (insecureSkipVerify : Bool) : GithubClient :=
  { BaseUrl := baseUrl, RepoOwner := repoOwner, RepoName := repoName, Revision := revision,
    AccessToken := accessToken, InsecureSkipVerify := insecureSkipVerify }

/-- The `http.Client` the status client builds: only the TLS toggle of its
transport is configured. -/
structure HttpClient where
  InsecureSkipVerify : Bool
  deriving DecidableEq, Repr

/-- A `github.Client` of the go-github library, recorded by how it was built:
the HTTP client, the enterprise URLs when `WithEnterpriseURLs` set them, and
the token when `WithAuthToken` set one. -/
structure ApiClient where
  httpClient : HttpClient
  enterpriseURLs : Option (String × String)
  authToken : Option Bytes
  deriving DecidableEq, Repr

/-- The four fields of a `github.RepoStatus`. -/
structure RepoStatus where
  State : String
  Description : String
  Context : String
  TargetURL : String
  deriving DecidableEq, Repr

/-- One call of `SetStatus`: the receiver and the status it was asked to
publish. -/
structure PublishCall where
  client : GithubClient
  status : RepoStatus
  deriving DecidableEq, Repr

/-- What lies outside the repository: the cluster client (`r.Get` for a
pipeline-run and for a secret), the URL parser (`url.Parse`, of which the
code reads the host), `WithEnterpriseURLs` of the go-github library, and the
remote `Repositories.CreateStatus`, whose answer may change from one call to
the next: its first argument is the number of publish calls made before. -/
structure World where
  getPipelineRun : NamespacedName → Except GoError PipelineRun
  getSecret : NamespacedName → Except GoError Secret
  urlParse : String → Except GoError String
  withEnterpriseURLs : String → String → Option GoError
  createStatus : Nat → ApiClient → String → String → String → RepoStatus → Option GoError

/-- The function `createClient`. -/
def createClient (w : World) (baseUrl : String) (httpClient : HttpClient) :
    Except GoError ApiClient :=
  match w.urlParse baseUrl with
  | .error err => .error err
  | .ok host =>
    if host = "github.com" then .ok ⟨httpClient, none, none⟩
    else
      match w.withEnterpriseURLs baseUrl baseUrl with
      | some err => .error err
      | none => .ok ⟨httpClient, some (baseUrl, baseUrl), none⟩

/-- The method `createClientWithAuthToken`. -/
def GithubClient.createClientWithAuthToken (w : World) (githubClient : GithubClient) :
    Except GoError ApiClient :=
  let httpClient : HttpClient := ⟨githubClient.InsecureSkipVerify⟩
  match createClient w githubClient.BaseUrl httpClient with
  | .error err => .error err
  | .ok client => .ok { client with authToken := some githubClient.AccessToken }

/-- The method `SetStatus`, returning the Go pair `(error, bool)`; `k` is the
number of publish calls made before this one, and stands for the moment of
the call in place of the context argument. -/
def GithubClient.SetStatus (w : World) (githubClient : GithubClient) (k : Nat)
    (ghState ghDescription ghContext ghTargetUrl : String) : Option GoError × Bool :=
  match githubClient.createClientWithAuthToken w with
  | .error err => (some err, false)
  | .ok client =>
    let status : RepoStatus := ⟨ghState, ghDescription, ghContext, ghTargetUrl⟩
    match w.createStatus k client githubClient.RepoOwner githubClient.RepoName
        githubClient.Revision status with
    | some err => (some err, false)
    | none => (none, true)

/-! ## Reconciliation -/

/-- How a call of `Reconcile` ends: it returns `(ctrl.Result{}, err)`, the
result being the zero value on every path, or it panics on a nil pointer. -/
inductive Outcome where
  | returned (err : Option GoError)
  | panicked
  deriving DecidableEq, Repr

/-- A run of `Reconcile`: how it ended and the publish calls it issued, in
order. -/
structure Run where
  outcome : Outcome
  calls : List PublishCall
  deriving DecidableEq, Repr

/-- The descriptor check of `Reconcile` (the split of the revision-param
descriptor and the reads of its second and third segment): the task name and
the parameter name, or the format error. The two index reads come after the
length test, so they are in range. -/
def descriptorCheck (githubRevisionParamName : String) : Except GoError (String × String) :=
  let parts := stringsSplitDot githubRevisionParamName
  if parts.length ≠ 3 then
    .error (errorsNew "the github revision param name doesn't have the correct format")
  else
    let taskName := (stringsSplitDot githubRevisionParamName).getD 1 ""
    let paramName := (stringsSplitDot githubRevisionParamName).getD 2 ""
    .ok (taskName, paramName)

/-- The condition loop of `Reconcile`: `log` holds the publish calls issued
so far. -/
def reconcileConditions (w : World) (statusClient : GithubClient) :
    List Condition → List PublishCall → Run
  | [], log => ⟨.returned none, log⟩
  | c :: rest, log =>
    if c.Status = ConditionTrue then
      let (err, _) := statusClient.SetStatus w log.length
        "success" "The build is successful" "tekton-ci" "https://rancher.jquad.rocks"
      let log1 := log ++ [⟨statusClient,
        ⟨"success", "The build is successful", "tekton-ci", "https://rancher.jquad.rocks"⟩⟩]
      match err with
      | some e => ⟨.returned (some e), log1⟩
      | none => reconcileConditions w statusClient rest log1
    else if c.Status = ConditionFalse then
      let (err, _) := statusClient.SetStatus w log.length
        "failure" "The build has failed" "tekton-ci" "https://rancher.jquad.rocks"
      let log1 := log ++ [⟨statusClient,
        ⟨"failure", "The build has failed", "tekton-ci", "https://rancher.jquad.rocks"⟩⟩]
      match err with
      | some e => ⟨.returned (some e), log1⟩
      | none => reconcileConditions w statusClient rest log1
    else
      let (err, _) := statusClient.SetStatus w log.length
        "pending" "The build is currently running" "tekton-ci" "https://rancher.jquad.rocks"
      let log1 := log ++ [⟨statusClient,
        ⟨"pending", "The build is currently running", "tekton-ci",
          "https://rancher.jquad.rocks"⟩⟩]
      match err with
      | some e => ⟨.returned (some e), log1⟩
      | none => reconcileConditions w statusClient rest log1

/-- The method `Reconcile`. -/
def Reconcile (w : World) (req : NamespacedName) : Run :=
  match w.getPipelineRun req with
  | .error _ => ⟨.returned none, []⟩
  | .ok pipelineRun =>
  match Validate pipelineRun with
  | some err => ⟨.returned (some err), []⟩
  | none =>
  let annotations := pipelineRun.GetAnnotations
  let baseUrl := (annotations.lookup ANNOTATION_GITHUB_BASE_URL).getD ""
  let githubOwner := (annotations.lookup ANNOTATION_GITHUB_OWNER).getD ""
  let githubRepository := (annotations.lookup ANNOTATION_GITHUB_REPOSITORY).getD ""
  let githubRevisionParamName :=
    (annotations.lookup ANNOTATION_GITHUB_REVISION_PARAM_NAME).getD ""
  let githubSecretName := (annotations.lookup ANNOTATION_GITHUB_SECRET_NAME).getD ""
  let githubSecretKey := (annotations.lookup ANNOTATION_GITHUB_SECRET_KEY).getD ""
  match w.getSecret ⟨pipelineRun.Namespace, githubSecretName⟩ with
  | .error err => ⟨.returned (some err), []⟩
  | .ok foundSecret =>
  match ValidateSecret pipelineRun foundSecret with
  | some err => ⟨.returned (some err), []⟩
  | none =>
  let accessToken : Bytes := (foundSecret.Data.lookup githubSecretKey).getD []
  match descriptorCheck githubRevisionParamName with
  | .error err => ⟨.returned (some err), []⟩
  | .ok (taskName, paramName) =>
  match pipelineRun.Status.PipelineSpec with
  | none => ⟨.panicked, []⟩
  | some pipelineSpec =>
  match findGitHubRevision pipelineSpec.Tasks taskName paramName with
  | (_, some err) => ⟨.returned (some err), []⟩
  | (githubRevision, none) =>
  let insecureSkipVerify := false
  let statusClient := NewGithubClient baseUrl githubOwner githubRepository githubRevision
    accessToken insecureSkipVerify
  reconcileConditions w statusClient pipelineRun.Status.Conditions []

/-! ## Definitions used to state the properties -/

/-- The six required annotation keys. -/
def requiredAnnotations : List String :=
  [ANNOTATION_GITHUB_BASE_URL, ANNOTATION_GITHUB_OWNER, ANNOTATION_GITHUB_REPOSITORY,
   ANNOTATION_GITHUB_REVISION_PARAM_NAME, ANNOTATION_GITHUB_SECRET_NAME,
   ANNOTATION_GITHUB_SECRET_KEY]

/-- The condition mapping as the specification words it: status `True` gives
`success`, status `False` gives `failure`, anything else gives `pending`, each
with its fixed description, the context label and the dashboard link. -/
def specRepoStatus (status : String) : RepoStatus :=
  if status = "True" then
    ⟨"success", "The build is successful", "tekton-ci", "https://rancher.jquad.rocks"⟩
  else if status = "False" then
    ⟨"failure", "The build has failed", "tekton-ci", "https://rancher.jquad.rocks"⟩
  else
    ⟨"pending", "The build is currently running", "tekton-ci", "https://rancher.jquad.rocks"⟩

/-- The error a publish of `status` returns when it is the call number `k`
of a reconciliation (counted from zero). -/
def publishError (w : World) (statusClient : GithubClient) (k : Nat) (status : RepoStatus) :
    Option GoError :=
  (statusClient.SetStatus w k status.State status.Description status.Context
    status.TargetURL).1

/-- The status client `Reconcile` builds: base URL, owner and repository from
the annotations, the located revision, the token read from the secret under
the configured key, and TLS verification left on. -/
def statusClientFor (pipelineRun : PipelineRun) (secret : Secret) (githubRevision : String) :
    GithubClient :=
  NewGithubClient
    ((pipelineRun.GetAnnotations.lookup ANNOTATION_GITHUB_BASE_URL).getD "")
    ((pipelineRun.GetAnnotations.lookup ANNOTATION_GITHUB_OWNER).getD "")
    ((pipelineRun.GetAnnotations.lookup ANNOTATION_GITHUB_REPOSITORY).getD "")
    githubRevision
    ((secret.Data.lookup
      ((pipelineRun.GetAnnotations.lookup ANNOTATION_GITHUB_SECRET_KEY).getD "")).getD [])
    false

/-- The format error of the descriptor check. -/
def formatError : GoError :=
  errorsNew "the github revision param name doesn't have the correct format"

/-! ## Concrete inputs -/

/-- A pipeline-run that carries every required annotation but the owner. -/
def runWithoutOwner : PipelineRun :=
  { Name := "run-1", Namespace := "ci",
    Annotations :=
      [(ANNOTATION_GITHUB_BASE_URL, "https://github.com"),
       (ANNOTATION_GITHUB_REPOSITORY, "repo"),
       (ANNOTATION_GITHUB_REVISION_PARAM_NAME, "tasks.build.GIT_REVISION"),
       (ANNOTATION_GITHUB_SECRET_NAME, "github-token"),
       (ANNOTATION_GITHUB_SECRET_KEY, "token")],
    Status := ⟨none, []⟩ }

/-- A pipeline-run that carries all six annotations, the base URL with the
empty string as its value. -/
def runWithEmptyBaseUrl : PipelineRun :=
  { Name := "run-2", Namespace := "ci",
    Annotations :=
      [(ANNOTATION_GITHUB_BASE_URL, ""),
       (ANNOTATION_GITHUB_OWNER, "owner"),
       (ANNOTATION_GITHUB_REPOSITORY, "repo"),
       (ANNOTATION_GITHUB_REVISION_PARAM_NAME, "tasks.build.GIT_REVISION"),
       (ANNOTATION_GITHUB_SECRET_NAME, "github-token"),
       (ANNOTATION_GITHUB_SECRET_KEY, "token")],
    Status := ⟨none, []⟩ }

/-- A pipeline-run with all six annotations set, one recorded task and
the given conditions. -/
def sampleRun (conditions : List Condition) : PipelineRun :=
  { Name := "run-3", Namespace := "ci",
    Annotations :=
      [(ANNOTATION_GITHUB_BASE_URL, "https://github.com"),
       (ANNOTATION_GITHUB_OWNER, "owner"),
       (ANNOTATION_GITHUB_REPOSITORY, "repo"),
       (ANNOTATION_GITHUB_REVISION_PARAM_NAME, "tasks.build.GIT_REVISION"),
       (ANNOTATION_GITHUB_SECRET_NAME, "github-token"),
       (ANNOTATION_GITHUB_SECRET_KEY, "token")],
    Status :=
      ⟨some ⟨[⟨"build", [⟨"GIT_REVISION", ⟨"abc123", []⟩⟩]⟩]⟩, conditions⟩ }

/-- A secret whose `token` entry holds three bytes. -/
def sampleSecret : Secret := ⟨[("token", [103, 104, 112])]⟩

/-- A secret whose `token` entry is present and empty. -/
def emptyTokenSecret : Secret := ⟨[("token", [])]⟩

/-- Two tasks named `build`: the first without parameters, the second with
the revision parameter. -/
def twoBuildTasks : List PipelineTask :=
  [⟨"build", []⟩, ⟨"build", [⟨"GIT_REVISION", ⟨"abc123", []⟩⟩]⟩]

/-- One task named `build` with the revision parameter. -/
def oneBuildTask : List PipelineTask :=
  [⟨"build", [⟨"GIT_REVISION", ⟨"abc123", []⟩⟩]⟩]

/-- A world that holds one pipeline-run and, in the same namespace, the
secret `github-token`; it resolves every base URL to the public host, and its
remote accepts every status but the one of the call number `failAt`, if any. -/
def sampleWorld (pipelineRun : PipelineRun) (secret : Secret) (failAt : Option Nat) : World :=
  { getPipelineRun := fun n =>
      if n = ⟨pipelineRun.Namespace, pipelineRun.Name⟩ then .ok pipelineRun
      else .error ⟨"pipelinerun not found"⟩,
    getSecret := fun n =>
      if n = ⟨pipelineRun.Namespace, "github-token"⟩ then .ok secret
      else .error ⟨"secret not found"⟩,
    urlParse := fun _ => .ok "github.com",
    withEnterpriseURLs := fun _ _ => none,
    createStatus := fun k _ _ _ _ _ =>
      if failAt = some k then some ⟨"502 Bad Gateway"⟩ else none }

/-- A world like the sample one whose remote accepts a status only when its
state is `accepted`, and answers with an error naming the state it was sent
otherwise. -/
def pickyWorld (accepted : String) : World :=
  { getPipelineRun := fun _ => .error ⟨"pipelinerun not found"⟩,
    getSecret := fun _ => .error ⟨"secret not found"⟩,
    urlParse := fun _ => .ok "github.com",
    withEnterpriseURLs := fun _ _ => none,
    createStatus := fun _ _ _ _ _ status =>
      if status.State = accepted then none else some ⟨"422 refused state " ++ status.State⟩ }

/-- The status client `Reconcile` builds for the sample pipeline-run and the
sample secret. -/
def sampleClient : GithubClient :=
  NewGithubClient "https://github.com" "owner" "repo" "abc123" [103, 104, 112] false

/-- A pipeline-run like the sample one whose descriptor has two segments. -/
def runWithShortDescriptor : PipelineRun :=
  { Name := "run-4", Namespace := "ci",
    Annotations :=
      [(ANNOTATION_GITHUB_BASE_URL, "https://github.com"),
       (ANNOTATION_GITHUB_OWNER, "owner"),
       (ANNOTATION_GITHUB_REPOSITORY, "repo"),
       (ANNOTATION_GITHUB_REVISION_PARAM_NAME, "build.GIT_REVISION"),
       (ANNOTATION_GITHUB_SECRET_NAME, "github-token"),
       (ANNOTATION_GITHUB_SECRET_KEY, "token")],
    Status :=
      ⟨some ⟨[⟨"build", [⟨"GIT_REVISION", ⟨"abc123", []⟩⟩]⟩]⟩, [⟨"Succeeded", "True"⟩]⟩ }

/-! ## Theorems: validation -/

/-- `Validate` reports the first of the six keys that is absent, and nothing
when none is. -/
theorem Validate_eq (pipelineRun : PipelineRun) :
    Validate pipelineRun =
      match requiredAnnotations.find? (fun k => (pipelineRun.GetAnnotations.lookup k).isNone) with
      | some k => some (errorsNew ("annotation '" ++ k ++ "' is not set"))
      | none => none := by
  unfold Validate requiredAnnotations
  simp only [List.find?_cons, List.find?_nil]
  cases h1 : List.lookup ANNOTATION_GITHUB_BASE_URL pipelineRun.GetAnnotations <;>
  cases h2 : List.lookup ANNOTATION_GITHUB_OWNER pipelineRun.GetAnnotations <;>
  cases h3 : List.lookup ANNOTATION_GITHUB_REPOSITORY pipelineRun.GetAnnotations <;>
  cases h4 : List.lookup ANNOTATION_GITHUB_REVISION_PARAM_NAME pipelineRun.GetAnnotations <;>
  cases h5 : List.lookup ANNOTATION_GITHUB_SECRET_NAME pipelineRun.GetAnnotations <;>
  cases h6 : List.lookup ANNOTATION_GITHUB_SECRET_KEY pipelineRun.GetAnnotations <;>
  simp

/-- The six keys are pairwise distinct. -/
theorem requiredAnnotations_nodup : requiredAnnotations.Nodup := by decide

/-- Claim C1: for each of the six required annotation keys, a pipeline-run
whose annotations lack that key and contain the other five is rejected by
`Validate` with the error "annotation '<key>' is not set", naming the omitted
key. -/
theorem Validate_missing_annotation (key : String) (hkey : key ∈ requiredAnnotations)
    (pipelineRun : PipelineRun)
    (hmissing : pipelineRun.GetAnnotations.lookup key = none)
    (hothers : ∀ other ∈ requiredAnnotations, other ≠ key →
      pipelineRun.GetAnnotations.lookup other ≠ none) :
    Validate pipelineRun = some (errorsNew ("annotation '" ++ key ++ "' is not set")) := by
  have h1 := hothers ANNOTATION_GITHUB_BASE_URL (by simp [requiredAnnotations])
  have h2 := hothers ANNOTATION_GITHUB_OWNER (by simp [requiredAnnotations])
  have h3 := hothers ANNOTATION_GITHUB_REPOSITORY (by simp [requiredAnnotations])
  have h4 := hothers ANNOTATION_GITHUB_REVISION_PARAM_NAME (by simp [requiredAnnotations])
  have h5 := hothers ANNOTATION_GITHUB_SECRET_NAME (by simp [requiredAnnotations])
  have h6 := hothers ANNOTATION_GITHUB_SECRET_KEY (by simp [requiredAnnotations])
  rw [Validate_eq]
  simp only [requiredAnnotations, List.mem_cons, List.mem_singleton, List.not_mem_nil,
    or_false] at hkey
  rcases hkey with rfl | rfl | rfl | rfl | rfl | rfl
  · simp [requiredAnnotations, hmissing]
  · have k1 := h1 (by decide)
    simp [requiredAnnotations, hmissing, Option.isNone_iff_eq_none, k1]
  · have k1 := h1 (by decide)
    have k2 := h2 (by decide)
    simp [requiredAnnotations, hmissing, Option.isNone_iff_eq_none, k1, k2]
  · have k1 := h1 (by decide)
    have k2 := h2 (by decide)
    have k3 := h3 (by decide)
    simp [requiredAnnotations, hmissing, Option.isNone_iff_eq_none, k1, k2, k3]
  · have k1 := h1 (by decide)
    have k2 := h2 (by decide)
    have k3 := h3 (by decide)
    have k4 := h4 (by decide)
    simp [requiredAnnotations, hmissing, Option.isNone_iff_eq_none, k1, k2, k3, k4]
  · have k1 := h1 (by decide)
    have k2 := h2 (by decide)
    have k3 := h3 (by decide)
    have k4 := h4 (by decide)
    have k5 := h5 (by decide)
    simp [requiredAnnotations, hmissing, Option.isNone_iff_eq_none, k1, k2, k3, k4, k5]

/-- Witness of C1: the pipeline-run without the owner annotation is rejected
with the message naming `github-status-controller/github-owner`. -/
theorem Validate_missing_annotation_witness :
    runWithoutOwner.GetAnnotations.lookup ANNOTATION_GITHUB_OWNER = none ∧
    Validate runWithoutOwner =
      some (errorsNew "annotation 'github-status-controller/github-owner' is not set") :=
  ⟨by decide,
   Validate_missing_annotation ANNOTATION_GITHUB_OWNER (by decide) runWithoutOwner
     (by decide) (by decide)⟩

/-- Counterexample to C2 as stated: a pipeline-run whose base-URL annotation
is present with the empty string as its value passes `Validate`, although not
all six annotations are non-empty. -/
theorem Validate_accepts_empty_value :
    Validate runWithEmptyBaseUrl = none ∧
    runWithEmptyBaseUrl.GetAnnotations.lookup ANNOTATION_GITHUB_BASE_URL = some "" ∧
    ¬ (Validate runWithEmptyBaseUrl = none ↔
        ∀ k ∈ requiredAnnotations,
          ∃ v, runWithEmptyBaseUrl.GetAnnotations.lookup k = some v ∧ v ≠ "") := by
  refine ⟨by decide, by decide, ?_⟩
  intro h
  have hall := h.mp (by decide)
  obtain ⟨v, hv, hne⟩ := hall ANNOTATION_GITHUB_BASE_URL (by decide)
  have hv2 : runWithEmptyBaseUrl.GetAnnotations.lookup ANNOTATION_GITHUB_BASE_URL = some "" := by
    decide
  rw [hv2] at hv
  exact hne (Option.some.inj hv).symm

/-- Claim C2, amended: `Validate` returns no error if and only if all six
required annotation keys are present, whatever their values. -/
theorem Validate_none_iff_present (pipelineRun : PipelineRun) :
    Validate pipelineRun = none ↔
      ∀ k ∈ requiredAnnotations, pipelineRun.GetAnnotations.lookup k ≠ none := by
  rw [Validate_eq]
  cases hf : requiredAnnotations.find?
      (fun k => (pipelineRun.GetAnnotations.lookup k).isNone) with
  | none =>
    simp only [true_iff]
    intro k hk hnone
    have := List.find?_eq_none.mp hf k hk
    simp [hnone] at this
  | some k =>
    simp only [reduceCtorEq, false_iff]
    intro hall
    have hmem := List.mem_of_find?_eq_some hf
    have hp := List.find?_some hf
    simp only [Option.isNone_iff_eq_none] at hp
    exact hall k hmem hp

/-- Claim C6: for a pipeline-run carrying both secret annotations,
`ValidateSecret` returns an error if and only if the secret has no entry
under the configured key or that entry is the empty byte string; an entry
with a non-empty value is accepted. -/
theorem ValidateSecret_error_iff (pipelineRun : PipelineRun) (secret : Secret)
    (name key : String)
    (hname : pipelineRun.GetAnnotations.lookup ANNOTATION_GITHUB_SECRET_NAME = some name)
    (hkey : pipelineRun.GetAnnotations.lookup ANNOTATION_GITHUB_SECRET_KEY = some key) :
    (ValidateSecret pipelineRun secret ≠ none ↔
      (secret.Data.lookup key = none ∨ secret.Data.lookup key = some [])) ∧
    (∀ v, secret.Data.lookup key = some v → v ≠ [] →
      ValidateSecret pipelineRun secret = none) := by
  unfold ValidateSecret
  simp only [hname, hkey, Option.isSome_some, Bool.and_self, if_true, Option.getD_some]
  cases hd : List.lookup key secret.Data with
  | none => simp
  | some v =>
    cases v with
    | nil => simp
    | cons b bs => simp

/-- Witness of C6: with the sample annotations, the secret whose `token`
entry is non-empty is accepted and the one whose entry is empty is rejected. -/
theorem ValidateSecret_error_iff_witness :
    ValidateSecret (sampleRun []) sampleSecret = none ∧
    ValidateSecret (sampleRun []) emptyTokenSecret ≠ none :=
  ⟨(ValidateSecret_error_iff (sampleRun []) sampleSecret "github-token" "token"
      (by decide) (by decide)).2 [103, 104, 112] (by decide) (by decide),
   (ValidateSecret_error_iff (sampleRun []) emptyTokenSecret "github-token" "token"
      (by decide) (by decide)).1.mpr (Or.inr (by decide))⟩

/-! ## Theorems: the revision locator -/

/-- The inner scan finds nothing exactly when no parameter has the name. -/
theorem findParam_eq_none_iff (paramName : String) (params : List Param) :
    findParam paramName params = none ↔ ∀ param ∈ params, param.Name ≠ paramName := by
  induction params with
  | nil => simp [findParam]
  | cons x xs ih =>
    by_cases hx : x.Name = paramName
    · simp [findParam, hx]
    · simp [findParam, hx, ih]

/-- The inner scan returns the value of the first parameter with the name. -/
theorem findParam_of_find? (paramName : String) (params : List Param) (param : Param)
    (h : params.find? (fun x => x.Name = paramName) = some param) :
    findParam paramName params = some param.Value.StringVal := by
  induction params with
  | nil => simp at h
  | cons x xs ih =>
    by_cases hx : x.Name = paramName
    · simp [List.find?_cons, hx] at h
      subst h
      simp [findParam, hx]
    · simp [List.find?_cons, hx] at h
      simp [findParam, hx, ih h]

/-- The outer scan finds nothing exactly when no task with the task name has
a parameter with the parameter name. -/
theorem findInTasks_eq_none_iff (taskName paramName : String) (tasks : List PipelineTask) :
    findInTasks taskName paramName tasks = none ↔
      ∀ task ∈ tasks, task.Name = taskName →
        ∀ param ∈ task.Params, param.Name ≠ paramName := by
  induction tasks with
  | nil => simp [findInTasks]
  | cons x xs ih =>
    by_cases hx : x.Name = taskName
    · cases hp : findParam paramName x.Params with
      | none =>
        have hp2 := (findParam_eq_none_iff paramName x.Params).mp hp
        simp only [findInTasks, hx, if_true, hp, ih, List.mem_cons, forall_eq_or_imp,
          forall_true_left]
        constructor
        · intro h
          exact ⟨hp2, h⟩
        · intro h
          exact h.2
      | some v =>
        have hp2 : ¬ ∀ param ∈ x.Params, param.Name ≠ paramName := by
          intro hall
          rw [(findParam_eq_none_iff paramName x.Params).mpr hall] at hp
          cases hp
        simp only [findInTasks, hx, if_true, hp, List.mem_cons, forall_eq_or_imp,
          forall_true_left, reduceCtorEq, false_iff]
        intro h
        exact hp2 h.1
    · simp [findInTasks, hx, ih]

/-- Counterexample to C3 as stated: the first task named `build` has no
parameter `GIT_REVISION`, a later task named `build` has one, and
`findGitHubRevision` returns the later task's value without an error. -/
theorem findGitHubRevision_looks_past_first_task :
    twoBuildTasks.find? (fun task => task.Name = "build") = some ⟨"build", []⟩ ∧
    findGitHubRevision twoBuildTasks "build" "GIT_REVISION" = ("abc123", none) := by
  decide

/-- Claim C3, amended: `findGitHubRevision` returns an error exactly when no
task named `t` has a parameter named `p` (so it does whenever no task is
named `t`), and the error comes with the empty string. -/
theorem findGitHubRevision_error_iff (tasks : List PipelineTask) (t p : String) :
    ((findGitHubRevision tasks t p).2 ≠ none ↔
      ∀ task ∈ tasks, task.Name = t → ∀ param ∈ task.Params, param.Name ≠ p) ∧
    ((findGitHubRevision tasks t p).2 ≠ none →
      findGitHubRevision tasks t p = ("", some (errorsNew (p ++ " not found in task " ++ t)))) ∧
    ((∀ task ∈ tasks, task.Name ≠ t) →
      findGitHubRevision tasks t p = ("", some (errorsNew (p ++ " not found in task " ++ t)))) := by
  have key := findInTasks_eq_none_iff t p tasks
  unfold findGitHubRevision
  cases hf : findInTasks t p tasks with
  | none =>
    refine ⟨?_, ?_, ?_⟩
    · simp only [ne_eq, reduceCtorEq, not_false_eq_true, true_iff]
      exact key.mp hf
    · intro _
      rfl
    · intro _
      rfl
  | some v =>
    have hno : ¬ ∀ task ∈ tasks, task.Name = t → ∀ param ∈ task.Params, param.Name ≠ p := by
      intro hall
      rw [key.mpr hall] at hf
      cases hf
    refine ⟨?_, ?_, ?_⟩
    · simp only [ne_eq, not_true_eq_false, false_iff]
      exact hno
    · intro h
      exact absurd rfl h
    · intro h
      exact absurd (fun task hmem hname _ _ => absurd hname (h task hmem)) hno

/-- Claim C4: when the first task named `t` has a parameter named `p`,
`findGitHubRevision` returns, without error, the string value of the first
parameter named `p` of that task. -/
theorem findGitHubRevision_first_match (tasks : List PipelineTask) (t p : String)
    (task : PipelineTask) (param : Param)
    (htask : tasks.find? (fun x => x.Name = t) = some task)
    (hparam : task.Params.find? (fun x => x.Name = p) = some param) :
    findGitHubRevision tasks t p = (param.Value.StringVal, none) := by
  have hin : findInTasks t p tasks = some param.Value.StringVal := by
    induction tasks with
    | nil => simp at htask
    | cons x xs ih =>
      by_cases hx : x.Name = t
      · simp [List.find?_cons, hx] at htask
        subst htask
        simp [findInTasks, hx, findParam_of_find? p x.Params param hparam]
      · simp [List.find?_cons, hx] at htask
        simp [findInTasks, hx, ih htask]
  simp [findGitHubRevision, hin]

/-- Witness of C4: for the single task `build` with parameter `GIT_REVISION`
of value `abc123`, the locator returns `abc123`. -/
theorem findGitHubRevision_first_match_witness :
    findGitHubRevision oneBuildTask "build" "GIT_REVISION" = ("abc123", none) :=
  findGitHubRevision_first_match oneBuildTask "build" "GIT_REVISION"
    ⟨"build", [⟨"GIT_REVISION", ⟨"abc123", []⟩⟩]⟩ ⟨"GIT_REVISION", ⟨"abc123", []⟩⟩
    (by decide) (by decide)

/-! ## Theorems: reconciliation -/

/-- The descriptor check returns the second and third of three segments. -/
theorem descriptorCheck_of_three (desc marker taskName paramName : String)
    (h : stringsSplitDot desc = [marker, taskName, paramName]) :
    descriptorCheck desc = .ok (taskName, paramName) := by
  simp [descriptorCheck, h]

/-- The descriptor check fails, with the format error, exactly when the
split does not give three segments. -/
theorem descriptorCheck_error_iff (desc : String) (e : GoError) :
    descriptorCheck desc = .error e ↔
      (stringsSplitDot desc).length ≠ 3 ∧ e = formatError := by
  unfold descriptorCheck formatError
  by_cases h : (stringsSplitDot desc).length = 3
  · simp [h]
  · simp [h, eq_comm]

/-- What `Reconcile` does once the fetch, `Validate`, the secret read and
`ValidateSecret` have succeeded. -/
theorem Reconcile_after_secret (w : World) (req : NamespacedName) (pipelineRun : PipelineRun)
    (secret : Secret)
    (hget : w.getPipelineRun req = .ok pipelineRun)
    (hval : Validate pipelineRun = none)
    (hsec : w.getSecret ⟨pipelineRun.Namespace,
      (pipelineRun.GetAnnotations.lookup ANNOTATION_GITHUB_SECRET_NAME).getD ""⟩ = .ok secret)
    (hvs : ValidateSecret pipelineRun secret = none) :
    Reconcile w req =
      match descriptorCheck
        ((pipelineRun.GetAnnotations.lookup ANNOTATION_GITHUB_REVISION_PARAM_NAME).getD "") with
      | .error err => ⟨.returned (some err), []⟩
      | .ok (taskName, paramName) =>
        match pipelineRun.Status.PipelineSpec with
        | none => ⟨.panicked, []⟩
        | some pipelineSpec =>
          match findGitHubRevision pipelineSpec.Tasks taskName paramName with
          | (_, some err) => ⟨.returned (some err), []⟩
          | (githubRevision, none) =>
            reconcileConditions w
              (NewGithubClient
                ((pipelineRun.GetAnnotations.lookup ANNOTATION_GITHUB_BASE_URL).getD "")
                ((pipelineRun.GetAnnotations.lookup ANNOTATION_GITHUB_OWNER).getD "")
                ((pipelineRun.GetAnnotations.lookup ANNOTATION_GITHUB_REPOSITORY).getD "")
                githubRevision
                ((secret.Data.lookup
                  ((pipelineRun.GetAnnotations.lookup ANNOTATION_GITHUB_SECRET_KEY).getD "")).getD [])
                false)
              pipelineRun.Status.Conditions [] := by
  unfold Reconcile
  simp only [hget, hval, hsec, hvs]

/-- Claim C5: once the fetch, `Validate`, the secret read and `ValidateSecret`
have succeeded, the descriptor check of `Reconcile` fails with the format
error if and only if splitting the descriptor on the dot does not give
exactly three segments, and `Reconcile` then returns that error; when the
split gives three segments, the second is the task name and the third the
parameter name handed to `findGitHubRevision`. The descriptor
`tasks.build.GIT_REVISION` is accepted with task `build` and parameter
`GIT_REVISION`, and `build.GIT_REVISION` is rejected. -/
theorem Reconcile_descriptor_check (w : World) (req : NamespacedName)
    (pipelineRun : PipelineRun) (secret : Secret) (desc : String)
    (hget : w.getPipelineRun req = .ok pipelineRun)
    (hval : Validate pipelineRun = none)
    (hsec : w.getSecret ⟨pipelineRun.Namespace,
      (pipelineRun.GetAnnotations.lookup ANNOTATION_GITHUB_SECRET_NAME).getD ""⟩ = .ok secret)
    (hvs : ValidateSecret pipelineRun secret = none)
    (hdesc : (pipelineRun.GetAnnotations.lookup ANNOTATION_GITHUB_REVISION_PARAM_NAME).getD ""
      = desc) :
    (descriptorCheck desc = .error formatError ↔ (stringsSplitDot desc).length ≠ 3) ∧
    ((stringsSplitDot desc).length ≠ 3 →
      Reconcile w req = ⟨.returned (some formatError), []⟩) ∧
    (∀ marker taskName paramName, stringsSplitDot desc = [marker, taskName, paramName] →
      descriptorCheck desc = .ok (taskName, paramName) ∧
      Reconcile w req =
        match pipelineRun.Status.PipelineSpec with
        | none => ⟨.panicked, []⟩
        | some pipelineSpec =>
          match findGitHubRevision pipelineSpec.Tasks taskName paramName with
          | (_, some err) => ⟨.returned (some err), []⟩
          | (githubRevision, none) =>
            reconcileConditions w
              (NewGithubClient
                ((pipelineRun.GetAnnotations.lookup ANNOTATION_GITHUB_BASE_URL).getD "")
                ((pipelineRun.GetAnnotations.lookup ANNOTATION_GITHUB_OWNER).getD "")
                ((pipelineRun.GetAnnotations.lookup ANNOTATION_GITHUB_REPOSITORY).getD "")
                githubRevision
                ((secret.Data.lookup
                  ((pipelineRun.GetAnnotations.lookup ANNOTATION_GITHUB_SECRET_KEY).getD "")).getD [])
                false)
              pipelineRun.Status.Conditions []) ∧
    descriptorCheck "tasks.build.GIT_REVISION" = .ok ("build", "GIT_REVISION") ∧
    descriptorCheck "build.GIT_REVISION" = .error formatError := by
  have hrec := Reconcile_after_secret w req pipelineRun secret hget hval hsec hvs
  rw [hdesc] at hrec
  refine ⟨?_, ?_, ?_,
    descriptorCheck_of_three "tasks.build.GIT_REVISION" "tasks" "build" "GIT_REVISION"
      (by decide),
    (descriptorCheck_error_iff "build.GIT_REVISION" formatError).mpr ⟨by decide, rfl⟩⟩
  · rw [descriptorCheck_error_iff]
    simp
  · intro hlen
    have herr : descriptorCheck desc = .error formatError :=
      (descriptorCheck_error_iff desc formatError).mpr ⟨hlen, rfl⟩
    rw [hrec, herr]
  · intro marker taskName paramName hsplit
    have hok := descriptorCheck_of_three desc marker taskName paramName hsplit
    refine ⟨hok, ?_⟩
    rw [hrec, hok]

/-- Witness of C5: in the sample world the descriptor
`tasks.build.GIT_REVISION` is accepted with task `build` and parameter
`GIT_REVISION`, and for the pipeline-run whose descriptor is
`build.GIT_REVISION` the reconciliation returns the format error. -/
theorem Reconcile_descriptor_check_witness :
    descriptorCheck "tasks.build.GIT_REVISION" = .ok ("build", "GIT_REVISION") ∧
    Reconcile (sampleWorld runWithShortDescriptor sampleSecret none) ⟨"ci", "run-4"⟩ =
      ⟨.returned (some formatError), []⟩ :=
  ⟨(Reconcile_descriptor_check (sampleWorld (sampleRun []) sampleSecret none) ⟨"ci", "run-3"⟩
      (sampleRun []) sampleSecret "tasks.build.GIT_REVISION" rfl (by decide) rfl (by decide)
      (by decide)).2.2.2.1,
   (Reconcile_descriptor_check (sampleWorld runWithShortDescriptor sampleSecret none)
      ⟨"ci", "run-4"⟩ runWithShortDescriptor sampleSecret "build.GIT_REVISION" rfl (by decide)
      rfl (by decide) (by decide)).2.1 (by decide)⟩

/-- One step of the condition loop: the condition is published with the
status the mapping gives it; an error ends the loop, otherwise the loop goes
on with the rest. -/
theorem reconcileConditions_cons (w : World) (statusClient : GithubClient) (c : Condition)
    (rest : List Condition) (log : List PublishCall) :
    reconcileConditions w statusClient (c :: rest) log =
      match publishError w statusClient log.length (specRepoStatus c.Status) with
      | some e => ⟨.returned (some e), log ++ [⟨statusClient, specRepoStatus c.Status⟩]⟩
      | none =>
        reconcileConditions w statusClient rest
          (log ++ [⟨statusClient, specRepoStatus c.Status⟩]) := by
  rw [reconcileConditions]
  by_cases h1 : c.Status = "True"
  · simp only [ConditionTrue, h1, if_true, specRepoStatus, publishError]
  · by_cases h2 : c.Status = "False"
    · have hft : ¬ ("False" : String) = "True" := by decide
      simp only [ConditionTrue, ConditionFalse, h2, hft, if_true, if_false, specRepoStatus,
        publishError]
    · simp only [ConditionTrue, ConditionFalse, h1, h2, if_false, specRepoStatus, publishError]

/-- The element that follows the first list in an append. -/
theorem getElem?_append_cons_length {α : Type} (l : List α) (a : α) (t : List α) :
    (l ++ a :: t)[l.length]? = some a := by
  induction l with
  | nil => simp
  | cons x xs ih => simpa using ih

/-- The loop only appends to the log of publish calls. -/
theorem reconcileConditions_calls_append (w : World) (statusClient : GithubClient)
    (conds : List Condition) (log : List PublishCall) :
    ∃ tail, (reconcileConditions w statusClient conds log).calls = log ++ tail := by
  induction conds generalizing log with
  | nil => exact ⟨[], by simp [reconcileConditions]⟩
  | cons c rest ih =>
    rw [reconcileConditions_cons]
    cases publishError w statusClient log.length (specRepoStatus c.Status) with
    | some e => exact ⟨[⟨statusClient, specRepoStatus c.Status⟩], rfl⟩
    | none =>
      obtain ⟨tail, ht⟩ := ih (log ++ [⟨statusClient, specRepoStatus c.Status⟩])
      exact ⟨⟨statusClient, specRepoStatus c.Status⟩ :: tail, by simp [ht]⟩

/-- When every publish succeeds, the loop returns no error and has issued one
call per condition, in order. -/
theorem reconcileConditions_all_ok (w : World) (statusClient : GithubClient)
    (conds : List Condition) (log : List PublishCall)
    (hok : ∀ k c, conds[k]? = some c →
      publishError w statusClient (log.length + k) (specRepoStatus c.Status) = none) :
    reconcileConditions w statusClient conds log =
      ⟨.returned none,
        log ++ conds.map (fun c => ⟨statusClient, specRepoStatus c.Status⟩)⟩ := by
  induction conds generalizing log with
  | nil => simp [reconcileConditions]
  | cons c rest ih =>
    have h0 := hok 0 c (by simp)
    rw [Nat.add_zero] at h0
    rw [reconcileConditions_cons, h0]
    simp only
    rw [ih]
    · simp
    · intro k c2 hk
      have h := hok (k + 1) c2 (by simpa using hk)
      have hlen : (log ++ [(⟨statusClient, specRepoStatus c.Status⟩ : PublishCall)]).length + k
          = log.length + (k + 1) := by
        simp
        omega
      rw [hlen]
      exact h

/-- When the publish for the condition at index `i` is the first to fail, the
loop returns its error after the calls for the conditions up to `i`. -/
theorem reconcileConditions_first_failure (w : World) (statusClient : GithubClient)
    (conds : List Condition) (log : List PublishCall) (i : Nat) (c : Condition) (e : GoError)
    (hi : conds[i]? = some c)
    (hok : ∀ k c2, k < i → conds[k]? = some c2 →
      publishError w statusClient (log.length + k) (specRepoStatus c2.Status) = none)
    (hfail : publishError w statusClient (log.length + i) (specRepoStatus c.Status) = some e) :
    reconcileConditions w statusClient conds log =
      ⟨.returned (some e),
        log ++ (conds.take (i + 1)).map (fun c => ⟨statusClient, specRepoStatus c.Status⟩)⟩ := by
  induction conds generalizing log i with
  | nil => simp at hi
  | cons x rest ih =>
    cases i with
    | zero =>
      simp only [List.getElem?_cons_zero, Option.some.injEq] at hi
      subst hi
      rw [Nat.add_zero] at hfail
      rw [reconcileConditions_cons, hfail]
      simp
    | succ j =>
      have h0 := hok 0 x (Nat.succ_pos j) (by simp)
      rw [Nat.add_zero] at h0
      rw [reconcileConditions_cons, h0]
      simp only
      have hlen : ∀ k, (log ++ [(⟨statusClient, specRepoStatus x.Status⟩ : PublishCall)]).length
          + k = log.length + (k + 1) := by
        intro k
        simp
        omega
      have hrest := ih (log ++ [(⟨statusClient, specRepoStatus x.Status⟩ : PublishCall)]) j
        (by simpa using hi)
        (by
          intro k c2 hk hc2
          rw [hlen]
          exact hok (k + 1) c2 (Nat.succ_lt_succ hk) (by simpa using hc2))
        (by
          rw [hlen]
          exact hfail)
      rw [hrest]
      simp

/-- Claim C7: the condition mapping of the loop is total and three-valued.
For a condition with status `True` the loop calls `SetStatus` with (success,
"The build is successful"), for status `False` with (failure, "The build has
failed"), and for any other status, `Unknown` and the empty status included,
with (pending, "The build is currently running"), the context being
`tekton-ci` and the target URL `https://rancher.jquad.rocks` in all three
cases: the error of that very call decides whether the loop stops, the
status handed to `SetStatus` is the one sent to the remote, and the call is
the one recorded. -/
theorem reconcileConditions_mapping (w : World) (statusClient : GithubClient)
    (c : Condition) (rest : List Condition) (log : List PublishCall) :
    (c.Status = "True" →
      reconcileConditions w statusClient (c :: rest) log =
        match (statusClient.SetStatus w log.length "success" "The build is successful"
          "tekton-ci" "https://rancher.jquad.rocks").1 with
        | some e => ⟨.returned (some e), log ++ [⟨statusClient,
            ⟨"success", "The build is successful", "tekton-ci",
              "https://rancher.jquad.rocks"⟩⟩]⟩
        | none => reconcileConditions w statusClient rest (log ++ [⟨statusClient,
            ⟨"success", "The build is successful", "tekton-ci",
              "https://rancher.jquad.rocks"⟩⟩])) ∧
    (c.Status = "False" →
      reconcileConditions w statusClient (c :: rest) log =
        match (statusClient.SetStatus w log.length "failure" "The build has failed"
          "tekton-ci" "https://rancher.jquad.rocks").1 with
        | some e => ⟨.returned (some e), log ++ [⟨statusClient,
            ⟨"failure", "The build has failed", "tekton-ci",
              "https://rancher.jquad.rocks"⟩⟩]⟩
        | none => reconcileConditions w statusClient rest (log ++ [⟨statusClient,
            ⟨"failure", "The build has failed", "tekton-ci",
              "https://rancher.jquad.rocks"⟩⟩])) ∧
    (c.Status ≠ "True" → c.Status ≠ "False" →
      reconcileConditions w statusClient (c :: rest) log =
        match (statusClient.SetStatus w log.length "pending" "The build is currently running"
          "tekton-ci" "https://rancher.jquad.rocks").1 with
        | some e => ⟨.returned (some e), log ++ [⟨statusClient,
            ⟨"pending", "The build is currently running", "tekton-ci",
              "https://rancher.jquad.rocks"⟩⟩]⟩
        | none => reconcileConditions w statusClient rest (log ++ [⟨statusClient,
            ⟨"pending", "The build is currently running", "tekton-ci",
              "https://rancher.jquad.rocks"⟩⟩])) ∧
    (∀ (apiClient : ApiClient) (k : Nat) (ghState ghDescription ghContext ghTargetUrl : String),
      statusClient.createClientWithAuthToken w = .ok apiClient →
      (statusClient.SetStatus w k ghState ghDescription ghContext ghTargetUrl).1 =
        w.createStatus k apiClient statusClient.RepoOwner statusClient.RepoName
          statusClient.Revision ⟨ghState, ghDescription, ghContext, ghTargetUrl⟩) ∧
    (reconcileConditions w statusClient [c] log).calls =
      log ++ [⟨statusClient,
        if c.Status = "True" then
          ⟨"success", "The build is successful", "tekton-ci", "https://rancher.jquad.rocks"⟩
        else if c.Status = "False" then
          ⟨"failure", "The build has failed", "tekton-ci", "https://rancher.jquad.rocks"⟩
        else
          ⟨"pending", "The build is currently running", "tekton-ci",
            "https://rancher.jquad.rocks"⟩⟩] ∧
    (reconcileConditions w statusClient (c :: rest) log).calls[log.length]? =
      some ⟨statusClient,
        if c.Status = "True" then
          ⟨"success", "The build is successful", "tekton-ci", "https://rancher.jquad.rocks"⟩
        else if c.Status = "False" then
          ⟨"failure", "The build has failed", "tekton-ci", "https://rancher.jquad.rocks"⟩
        else
          ⟨"pending", "The build is currently running", "tekton-ci",
            "https://rancher.jquad.rocks"⟩⟩ ∧
    reconcileConditions w statusClient (⟨c.Kind, "Unknown"⟩ :: rest) log =
      (match (statusClient.SetStatus w log.length "pending" "The build is currently running"
          "tekton-ci" "https://rancher.jquad.rocks").1 with
        | some e => ⟨.returned (some e), log ++ [⟨statusClient,
            ⟨"pending", "The build is currently running", "tekton-ci",
              "https://rancher.jquad.rocks"⟩⟩]⟩
        | none => reconcileConditions w statusClient rest (log ++ [⟨statusClient,
            ⟨"pending", "The build is currently running", "tekton-ci",
              "https://rancher.jquad.rocks"⟩⟩])) ∧
    reconcileConditions w statusClient (⟨c.Kind, ""⟩ :: rest) log =
      (match (statusClient.SetStatus w log.length "pending" "The build is currently running"
          "tekton-ci" "https://rancher.jquad.rocks").1 with
        | some e => ⟨.returned (some e), log ++ [⟨statusClient,
            ⟨"pending", "The build is currently running", "tekton-ci",
              "https://rancher.jquad.rocks"⟩⟩]⟩
        | none => reconcileConditions w statusClient rest (log ++ [⟨statusClient,
            ⟨"pending", "The build is currently running", "tekton-ci",
              "https://rancher.jquad.rocks"⟩⟩])) := by
  have hft : ¬ ("False" : String) = "True" := by decide
  have hut : ¬ ("Unknown" : String) = "True" := by decide
  have huf : ¬ ("Unknown" : String) = "False" := by decide
  have het : ¬ ("" : String) = "True" := by decide
  have hef : ¬ ("" : String) = "False" := by decide
  have pend : ∀ c2 : Condition, c2.Status ≠ "True" → c2.Status ≠ "False" →
      reconcileConditions w statusClient (c2 :: rest) log =
        match (statusClient.SetStatus w log.length "pending" "The build is currently running"
          "tekton-ci" "https://rancher.jquad.rocks").1 with
        | some e => ⟨.returned (some e), log ++ [⟨statusClient,
            ⟨"pending", "The build is currently running", "tekton-ci",
              "https://rancher.jquad.rocks"⟩⟩]⟩
        | none => reconcileConditions w statusClient rest (log ++ [⟨statusClient,
            ⟨"pending", "The build is currently running", "tekton-ci",
              "https://rancher.jquad.rocks"⟩⟩]) := by
    intro c2 h1 h2
    rw [reconcileConditions]
    simp only [ConditionTrue, ConditionFalse, h1, h2, if_false]
  have single : ∀ c2 : Condition, (reconcileConditions w statusClient [c2] log).calls =
      log ++ [⟨statusClient, specRepoStatus c2.Status⟩] := by
    intro c2
    rw [reconcileConditions_cons]
    cases publishError w statusClient log.length (specRepoStatus c2.Status) with
    | some e => rfl
    | none => simp [reconcileConditions]
  refine ⟨?_, ?_, pend c, ?_, single c, ?_, pend ⟨c.Kind, "Unknown"⟩ hut huf,
    pend ⟨c.Kind, ""⟩ het hef⟩
  · intro h1
    rw [reconcileConditions]
    simp only [ConditionTrue, h1, if_true]
  · intro h2
    rw [reconcileConditions]
    simp only [ConditionTrue, ConditionFalse, h2, hft, if_true, if_false]
  · intro apiClient k ghState ghDescription ghContext ghTargetUrl hclient
    unfold GithubClient.SetStatus
    simp only [hclient]
    cases w.createStatus k apiClient statusClient.RepoOwner statusClient.RepoName
      statusClient.Revision ⟨ghState, ghDescription, ghContext, ghTargetUrl⟩ <;> rfl
  · show (reconcileConditions w statusClient (c :: rest) log).calls[log.length]? =
      some ⟨statusClient, specRepoStatus c.Status⟩
    rw [reconcileConditions_cons]
    cases publishError w statusClient log.length (specRepoStatus c.Status) with
    | some e => exact getElem?_append_cons_length log _ []
    | none =>
      obtain ⟨tail, ht⟩ := reconcileConditions_calls_append w statusClient rest
        (log ++ [⟨statusClient, specRepoStatus c.Status⟩])
      simp only
      rw [ht, List.append_assoc]
      exact getElem?_append_cons_length log _ tail

/-- Witness of C7: against a remote that accepts only the state `success`, a
condition with status `True` is published and accepted, while conditions with
status `False` and `Unknown` are refused with the states `failure` and
`pending` the remote was sent. -/
theorem reconcileConditions_mapping_witness :
    reconcileConditions (pickyWorld "success") sampleClient [⟨"Succeeded", "True"⟩] [] =
      ⟨.returned none,
        [⟨sampleClient, ⟨"success", "The build is successful", "tekton-ci",
          "https://rancher.jquad.rocks"⟩⟩]⟩ ∧
    reconcileConditions (pickyWorld "success") sampleClient [⟨"Succeeded", "False"⟩] [] =
      ⟨.returned (some ⟨"422 refused state failure"⟩),
        [⟨sampleClient, ⟨"failure", "The build has failed", "tekton-ci",
          "https://rancher.jquad.rocks"⟩⟩]⟩ ∧
    reconcileConditions (pickyWorld "success") sampleClient [⟨"Succeeded", "Unknown"⟩] [] =
      ⟨.returned (some ⟨"422 refused state pending"⟩),
        [⟨sampleClient, ⟨"pending", "The build is currently running", "tekton-ci",
          "https://rancher.jquad.rocks"⟩⟩]⟩ :=
  ⟨((reconcileConditions_mapping (pickyWorld "success") sampleClient ⟨"Succeeded", "True"⟩
      [] []).1 rfl).trans (by decide),
   ((reconcileConditions_mapping (pickyWorld "success") sampleClient ⟨"Succeeded", "False"⟩
      [] []).2.1 rfl).trans (by decide),
   ((reconcileConditions_mapping (pickyWorld "success") sampleClient ⟨"Succeeded", "Unknown"⟩
      [] []).2.2.1 (by decide) (by decide)).trans (by decide)⟩

/-- Once every step before the condition loop has succeeded, `Reconcile` is
the condition loop run with the status client built from the snapshot. -/
theorem Reconcile_reaches_loop (w : World) (req : NamespacedName) (pipelineRun : PipelineRun)
    (secret : Secret) (taskName paramName : String) (pipelineSpec : PipelineSpec)
    (githubRevision : String)
    (hget : w.getPipelineRun req = .ok pipelineRun)
    (hval : Validate pipelineRun = none)
    (hsec : w.getSecret ⟨pipelineRun.Namespace,
      (pipelineRun.GetAnnotations.lookup ANNOTATION_GITHUB_SECRET_NAME).getD ""⟩ = .ok secret)
    (hvs : ValidateSecret pipelineRun secret = none)
    (hdesc : descriptorCheck
      ((pipelineRun.GetAnnotations.lookup ANNOTATION_GITHUB_REVISION_PARAM_NAME).getD "")
        = .ok (taskName, paramName))
    (hspec : pipelineRun.Status.PipelineSpec = some pipelineSpec)
    (hrev : findGitHubRevision pipelineSpec.Tasks taskName paramName = (githubRevision, none)) :
    Reconcile w req =
      reconcileConditions w (statusClientFor pipelineRun secret githubRevision)
        pipelineRun.Status.Conditions [] := by
  rw [Reconcile_after_secret w req pipelineRun secret hget hval hsec hvs, hdesc]
  simp only [hspec, hrev, statusClientFor]

/-- Claim C8: when the fetch, `Validate`, the secret read, `ValidateSecret`,
the descriptor check, the revision lookup and every publish call succeed,
`Reconcile` returns no error and the publish calls it issues are exactly the
conditions of the snapshot, in recorded order, each mapped to its status:
one call per condition, none skipped, merged or added. -/
theorem Reconcile_publishes_every_condition (w : World) (req : NamespacedName)
    (pipelineRun : PipelineRun) (secret : Secret) (taskName paramName : String)
    (pipelineSpec : PipelineSpec) (githubRevision : String)
    (hget : w.getPipelineRun req = .ok pipelineRun)
    (hval : Validate pipelineRun = none)
    (hsec : w.getSecret ⟨pipelineRun.Namespace,
      (pipelineRun.GetAnnotations.lookup ANNOTATION_GITHUB_SECRET_NAME).getD ""⟩ = .ok secret)
    (hvs : ValidateSecret pipelineRun secret = none)
    (hdesc : descriptorCheck
      ((pipelineRun.GetAnnotations.lookup ANNOTATION_GITHUB_REVISION_PARAM_NAME).getD "")
        = .ok (taskName, paramName))
    (hspec : pipelineRun.Status.PipelineSpec = some pipelineSpec)
    (hrev : findGitHubRevision pipelineSpec.Tasks taskName paramName = (githubRevision, none))
    (hpub : ∀ k c, pipelineRun.Status.Conditions[k]? = some c →
      publishError w (statusClientFor pipelineRun secret githubRevision) k
        (specRepoStatus c.Status) = none) :
    Reconcile w req =
      ⟨.returned none,
        pipelineRun.Status.Conditions.map
          (fun c => ⟨statusClientFor pipelineRun secret githubRevision,
            specRepoStatus c.Status⟩)⟩ := by
  rw [Reconcile_reaches_loop w req pipelineRun secret taskName paramName pipelineSpec
    githubRevision hget hval hsec hvs hdesc hspec hrev]
  rw [reconcileConditions_all_ok]
  · simp
  · intro k c hk
    simpa using hpub k c hk

/-- Claim C9: when a snapshot reaches the condition loop and the publish for
the condition at index `i` is the first one to fail, `Reconcile` issues
exactly the `i + 1` publish calls for the conditions `0..i`, in order, none
for the later conditions, and returns the error of that publish call. -/
theorem Reconcile_first_publish_failure (w : World) (req : NamespacedName)
    (pipelineRun : PipelineRun) (secret : Secret) (taskName paramName : String)
    (pipelineSpec : PipelineSpec) (githubRevision : String)
    (i : Nat) (ci : Condition) (e : GoError)
    (hget : w.getPipelineRun req = .ok pipelineRun)
    (hval : Validate pipelineRun = none)
    (hsec : w.getSecret ⟨pipelineRun.Namespace,
      (pipelineRun.GetAnnotations.lookup ANNOTATION_GITHUB_SECRET_NAME).getD ""⟩ = .ok secret)
    (hvs : ValidateSecret pipelineRun secret = none)
    (hdesc : descriptorCheck
      ((pipelineRun.GetAnnotations.lookup ANNOTATION_GITHUB_REVISION_PARAM_NAME).getD "")
        = .ok (taskName, paramName))
    (hspec : pipelineRun.Status.PipelineSpec = some pipelineSpec)
    (hrev : findGitHubRevision pipelineSpec.Tasks taskName paramName = (githubRevision, none))
    (hi : pipelineRun.Status.Conditions[i]? = some ci)
    (hbefore : ∀ k c, k < i → pipelineRun.Status.Conditions[k]? = some c →
      publishError w (statusClientFor pipelineRun secret githubRevision) k
        (specRepoStatus c.Status) = none)
    (hfail : publishError w (statusClientFor pipelineRun secret githubRevision) i
      (specRepoStatus ci.Status) = some e) :
    Reconcile w req =
      ⟨.returned (some e),
        (pipelineRun.Status.Conditions.take (i + 1)).map
          (fun c => ⟨statusClientFor pipelineRun secret githubRevision,
            specRepoStatus c.Status⟩)⟩ ∧
    (Reconcile w req).calls.length = i + 1 := by
  rw [Reconcile_reaches_loop w req pipelineRun secret taskName paramName pipelineSpec
    githubRevision hget hval hsec hvs hdesc hspec hrev]
  rw [reconcileConditions_first_failure w _ _ [] i ci e hi
    (by
      intro k c hk hc
      simpa using hbefore k c hk hc)
    (by simpa using hfail)]
  have hlt : i < pipelineRun.Status.Conditions.length := by
    by_contra hge
    rw [List.getElem?_eq_none (Nat.le_of_not_lt hge)] at hi
    cases hi
  refine ⟨by simp, ?_⟩
  simp only [List.nil_append, List.length_map, List.length_take]
  omega

/-- Claim C10: for a snapshot that is fetched, if `Validate` fails, or the
secret read fails, or `ValidateSecret` fails, or the descriptor check fails,
or `findGitHubRevision` fails, then `Reconcile` issues no publish call and
returns, unchanged, the error of the first of these steps that failed. -/
theorem Reconcile_early_failure (w : World) (req : NamespacedName) (pipelineRun : PipelineRun)
    (hget : w.getPipelineRun req = .ok pipelineRun) :
    (∀ e, Validate pipelineRun = some e → Reconcile w req = ⟨.returned (some e), []⟩) ∧
    (Validate pipelineRun = none →
      (∀ e, w.getSecret ⟨pipelineRun.Namespace,
          (pipelineRun.GetAnnotations.lookup ANNOTATION_GITHUB_SECRET_NAME).getD ""⟩ = .error e →
        Reconcile w req = ⟨.returned (some e), []⟩) ∧
      (∀ secret, w.getSecret ⟨pipelineRun.Namespace,
          (pipelineRun.GetAnnotations.lookup ANNOTATION_GITHUB_SECRET_NAME).getD ""⟩ = .ok secret →
        (∀ e, ValidateSecret pipelineRun secret = some e →
          Reconcile w req = ⟨.returned (some e), []⟩) ∧
        (ValidateSecret pipelineRun secret = none →
          (∀ e, descriptorCheck
              ((pipelineRun.GetAnnotations.lookup ANNOTATION_GITHUB_REVISION_PARAM_NAME).getD "")
                = .error e →
            Reconcile w req = ⟨.returned (some e), []⟩) ∧
          (∀ taskName paramName pipelineSpec revision e,
            descriptorCheck
              ((pipelineRun.GetAnnotations.lookup ANNOTATION_GITHUB_REVISION_PARAM_NAME).getD "")
                = .ok (taskName, paramName) →
            pipelineRun.Status.PipelineSpec = some pipelineSpec →
            findGitHubRevision pipelineSpec.Tasks taskName paramName = (revision, some e) →
            Reconcile w req = ⟨.returned (some e), []⟩)))) := by
  refine ⟨?_, ?_⟩
  · intro e hval
    unfold Reconcile
    simp only [hget, hval]
  · intro hval
    refine ⟨?_, ?_⟩
    · intro e hsec
      unfold Reconcile
      simp only [hget, hval, hsec]
    · intro secret hsec
      refine ⟨?_, ?_⟩
      · intro e hvs
        unfold Reconcile
        simp only [hget, hval, hsec, hvs]
      · intro hvs
        have hrec := Reconcile_after_secret w req pipelineRun secret hget hval hsec hvs
        refine ⟨?_, ?_⟩
        · intro e hdesc
          rw [hrec, hdesc]
        · intro taskName paramName pipelineSpec revision e hdesc hspec hrev
          rw [hrec, hdesc]
          simp only [hspec, hrev]

/-- Witness of C8: one condition with status `True` gives exactly one call
with state `success`; the conditions `False` and empty status give exactly
two calls, `failure` then `pending`. -/
theorem Reconcile_publishes_every_condition_witness :
    Reconcile (sampleWorld (sampleRun [⟨"Succeeded", "True"⟩]) sampleSecret none)
        ⟨"ci", "run-3"⟩ =
      ⟨.returned none,
        [⟨sampleClient, ⟨"success", "The build is successful", "tekton-ci",
          "https://rancher.jquad.rocks"⟩⟩]⟩ ∧
    Reconcile (sampleWorld (sampleRun [⟨"Succeeded", "False"⟩, ⟨"Ready", ""⟩]) sampleSecret none)
        ⟨"ci", "run-3"⟩ =
      ⟨.returned none,
        [⟨sampleClient, ⟨"failure", "The build has failed", "tekton-ci",
          "https://rancher.jquad.rocks"⟩⟩,
         ⟨sampleClient, ⟨"pending", "The build is currently running", "tekton-ci",
          "https://rancher.jquad.rocks"⟩⟩]⟩ :=
  ⟨(Reconcile_publishes_every_condition
      (sampleWorld (sampleRun [⟨"Succeeded", "True"⟩]) sampleSecret none) ⟨"ci", "run-3"⟩
      (sampleRun [⟨"Succeeded", "True"⟩]) sampleSecret "build" "GIT_REVISION"
      ⟨oneBuildTask⟩ "abc123" rfl (by decide) rfl (by decide)
      (descriptorCheck_of_three _ "tasks" "build" "GIT_REVISION" (by decide)) rfl (by decide)
      (fun _ _ _ => rfl)).trans (by decide),
   (Reconcile_publishes_every_condition
      (sampleWorld (sampleRun [⟨"Succeeded", "False"⟩, ⟨"Ready", ""⟩]) sampleSecret none)
      ⟨"ci", "run-3"⟩
      (sampleRun [⟨"Succeeded", "False"⟩, ⟨"Ready", ""⟩]) sampleSecret "build" "GIT_REVISION"
      ⟨oneBuildTask⟩ "abc123" rfl (by decide) rfl (by decide)
      (descriptorCheck_of_three _ "tasks" "build" "GIT_REVISION" (by decide)) rfl (by decide)
      (fun _ _ _ => rfl)).trans (by decide)⟩

/-- Witness of C9: with three conditions and a remote that rejects the second
publish, `Reconcile` returns that error after exactly two calls. -/
theorem Reconcile_first_publish_failure_witness :
    Reconcile
        (sampleWorld (sampleRun [⟨"Succeeded", "True"⟩, ⟨"Ready", "False"⟩, ⟨"Done", "Unknown"⟩])
          sampleSecret (some 1))
        ⟨"ci", "run-3"⟩ =
      ⟨.returned (some ⟨"502 Bad Gateway"⟩),
        [⟨sampleClient, ⟨"success", "The build is successful", "tekton-ci",
          "https://rancher.jquad.rocks"⟩⟩,
         ⟨sampleClient, ⟨"failure", "The build has failed", "tekton-ci",
          "https://rancher.jquad.rocks"⟩⟩]⟩ :=
  (Reconcile_first_publish_failure
    (sampleWorld (sampleRun [⟨"Succeeded", "True"⟩, ⟨"Ready", "False"⟩, ⟨"Done", "Unknown"⟩])
      sampleSecret (some 1))
    ⟨"ci", "run-3"⟩
    (sampleRun [⟨"Succeeded", "True"⟩, ⟨"Ready", "False"⟩, ⟨"Done", "Unknown"⟩]) sampleSecret
    "build" "GIT_REVISION" ⟨oneBuildTask⟩ "abc123" 1 ⟨"Ready", "False"⟩ ⟨"502 Bad Gateway"⟩
    rfl (by decide) rfl (by decide)
    (descriptorCheck_of_three _ "tasks" "build" "GIT_REVISION" (by decide)) rfl (by decide)
    (by decide)
    (by
      intro k c hk _
      obtain rfl : k = 0 := by omega
      rfl)
    (by decide)).1.trans (by decide)

/-- Witness of C10: the pipeline-run without the owner annotation ends with
the error of `Validate`, and the sample pipeline-run with a secret whose
token is empty ends with the error of `ValidateSecret`; neither publishes. -/
theorem Reconcile_early_failure_witness :
    Reconcile (sampleWorld runWithoutOwner sampleSecret none) ⟨"ci", "run-1"⟩ =
      ⟨.returned
        (some (errorsNew "annotation 'github-status-controller/github-owner' is not set")),
        []⟩ ∧
    Reconcile (sampleWorld (sampleRun [⟨"Succeeded", "True"⟩]) emptyTokenSecret none)
        ⟨"ci", "run-3"⟩ =
      ⟨.returned (some (errorsNew "'token' is not set in the secret 'github-token' ")), []⟩ :=
  ⟨(Reconcile_early_failure (sampleWorld runWithoutOwner sampleSecret none) ⟨"ci", "run-1"⟩
      runWithoutOwner rfl).1 _ (by decide),
   ((Reconcile_early_failure
      (sampleWorld (sampleRun [⟨"Succeeded", "True"⟩]) emptyTokenSecret none) ⟨"ci", "run-3"⟩
      (sampleRun [⟨"Succeeded", "True"⟩]) rfl).2 (by decide)).2 emptyTokenSecret rfl |>.1 _
      (by decide)⟩

end GithubStatusController
